import Mathlib

/-!
Verification of the resume-tls capture-and-replay mechanism (src/resumetls.go).

The Go package wraps a TLS connection so that the nondeterministic inputs of a
handshake (bytes read from the transport, bytes drawn from the randomness
source) are captured into buffers, and so that a later session can replay those
bytes into a fresh handshake run and re-inject the saved per-direction record
sequence counters.

Modelling choices (shallow embedding):
* Bytes are natural numbers; byte streams are ordered lists.
* The live transport and the live randomness source are modelled as a `World`
  holding the bytes still available on each, plus the bytes written so far to
  the live transport.
* The external handshake engine (crypto/tls) is a black box: a run of its
  handshake is an arbitrary finite sequence of read/write operations
  (`EngineBehavior.ops`) followed by an outcome (`EngineBehavior.result`,
  `none` meaning success) and final internal sequence-counter values.
  crypto/tls caches a handshake failure (subsequent Handshake calls return the
  cached error without further I/O); this is modelled by `Engine.failedWith`.
  Because of that caching, the engine performs no I/O after a failed run, so
  identifying the tee target with the session buffer field is observationally
  faithful even though Go re-points `c.connBuffer` on failure.
* Machine `[8]byte` counters are lists of naturals (length irrelevant to the
  claims; `zeroSeq` is the fresh-engine value).
-/

namespace ResumeTLS

/-- A byte stream: ordered list of bytes (bytes as naturals). -/
abbrev Bytes := List Nat

/-- `State` is buffered handshake data (resumetls.go, lines 18–24):
`conn` the transport bytes consumed, `rand` the randomness bytes consumed,
`inSeq`/`outSeq` the engine's per-direction record sequence counters. -/
structure State where
  conn : Bytes
  rand : Bytes
  inSeq : Bytes
  outSeq : Bytes
  deriving Repr, DecidableEq

/-- Which side of the protocol an engine instance plays (tls.Server vs tls.Client). -/
inductive Role where
  | client
  | server
  deriving Repr, DecidableEq

/-- The zero value of an `[8]byte` counter. -/
def zeroSeq : Bytes := List.replicate 8 0

/-- Modelled from the spec: the external Handshake Engine's observable state
(§6, §4.3).  The engine itself (crypto/tls) is outside this repository, so it
is modelled as: a role (which constructor built it), the two per-direction
sequence counters the Sequence Accessor reads and writes, a cached handshake
failure (crypto/tls returns the stored error on repeated Handshake calls), and
whether the engine supports the Sequence Accessor contract at all (§7,
EngineIncompatible) — in the Go code that support is the reflective presence
of the `in`/`out` halfConn fields and their `seq` field. -/
structure Engine where
  role : Role
  inSeq : Bytes
  outSeq : Bytes
  failedWith : Option Nat
  supportsSeq : Bool
  deriving Repr, DecidableEq

/-- A randomness source as seen through the configuration: the process default
(crypto/rand.Reader), a caller-supplied reader, or the override wrapper this
package installs. -/
inductive RandSrc where
  | stdlib
  | user (id : Nat)
  | override (base : RandSrc)
  deriving Repr, DecidableEq

/-- The caller's tls.Config, restricted to what this package touches: its
`Rand` field (nil = none) and — modelled from the spec (§7) — whether the
engine the config selects supports the Sequence Accessor contract. -/
structure Config where
  rand : Option RandSrc
  supportsSeqAccess : Bool
  deriving Repr, DecidableEq

/-- Modelled from the spec: the attachable override readers of the internal
`io`/`net` helper packages (not under src/).  `tee` is the capture-path
io.TeeReader that copies every byte read into the session buffer; `multi` is
the resume-path io.MultiReader holding the not-yet-consumed saved bytes, after
which reads fall through to the live source.  A detached wrapper (`none` in
the enclosing `Option`) is a pure pass-through. -/
inductive OvReader where
  | tee
  | multi (ahead : Bytes)
  deriving Repr, DecidableEq

/-- The resumable connection (resumetls.go, lines 26–34): the facade over the
engine.  `ovRand` is overrideRand.OverrideReader, `ovConnR` is
overrideConn.OverrideReader, `ovConnW` records whether the discarding write
sink (ioutil.Discard) is attached as overrideConn.OverrideWriter. -/
structure Conn where
  handshaked : Bool
  ovRand : Option OvReader
  ovConnR : Option OvReader
  ovConnW : Bool
  connBuffer : Bytes
  randBuffer : Bytes
  engine : Engine
  deriving Repr, DecidableEq

/-- The live outside world of one session: bytes still readable from the
transport, bytes still available from the live randomness source, and bytes
written so far onto the live transport. -/
structure World where
  transport : Bytes
  entropy : Bytes
  transportWritten : Bytes
  deriving Repr, DecidableEq

/-- One I/O operation the engine performs against its wired sources/sink
during a handshake run: read `n` bytes from the connection, read `n` bytes of
randomness, or write bytes to the connection. -/
inductive HsOp where
  | readConn (n : Nat)
  | readRand (n : Nat)
  | writeConn (bs : Bytes)
  deriving Repr, DecidableEq

/-- Modelled from the spec: one black-box behaviour of the external handshake
engine (§6): the I/O it performs, its outcome (`none` = success, `some code` =
failure with that error), and the sequence-counter values its run leaves in the
engine's internal state. -/
structure EngineBehavior where
  ops : List HsOp
  result : Option Nat
  finalInSeq : Bytes
  finalOutSeq : Bytes
  deriving Repr, DecidableEq

/-- Errors surfaced by this package: a propagated engine failure (capture
path returns it unwrapped), the resume path's wrapping of an engine failure
(fmt.Errorf at resumetls.go line 103), and a runtime crash of the reflective
sequence accessor on an engine without the required fields. -/
inductive HsError where
  | engine (code : Nat)
  | handshakeEr (code : Nat)
  | crash
  deriving Repr, DecidableEq

/-- Modelled from the spec: the read dispatch of the internal override
wrappers (internal/io.OverrideReader, internal/net.OverrideConn — not under
src/): when an override reader is attached the read goes through it, otherwise
straight to the live source.  Returns (bytes delivered to the caller, updated
override reader, updated live stream).  `take`/`drop` with truncated
subtraction give exactly the prefix-then-fall-through semantics of
io.MultiReader and the pass-through of io.TeeReader. -/
def readFrom : Option OvReader → Bytes → Nat → Bytes × Option OvReader × Bytes
  | none, live, n => (live.take n, none, live.drop n)
  | some OvReader.tee, live, n => (live.take n, some OvReader.tee, live.drop n)
  | some (OvReader.multi ahead), live, n =>
      (ahead.take n ++ live.take (n - ahead.length),
       some (OvReader.multi (ahead.drop n)),
       live.drop (n - ahead.length))

/-- Whether an attached override reader is the capturing tee. -/
def isTee : Option OvReader → Bool
  | some OvReader.tee => true
  | _ => false

/-- The state threaded through an engine handshake run: the facade, the world,
plus the ghost observation of exactly which bytes the engine has received from
the connection reader (`gotConn`) and the randomness reader (`gotRand`). -/
structure RunSt where
  conn : Conn
  world : World
  gotConn : Bytes
  gotRand : Bytes
  deriving Repr, DecidableEq

/-- One engine I/O operation against the wired sources/sink.  Connection reads
go through `ovConnR` (tee appends to `connBuffer`), randomness reads through
`ovRand` (tee appends to `randBuffer`), and writes are absorbed when the
discarding sink is attached (`ovConnW`), otherwise land on the live
transport. -/
def step (s : RunSt) : HsOp → RunSt
  | HsOp.readConn n =>
    let r := readFrom s.conn.ovConnR s.world.transport n
    { conn := { s.conn with
        ovConnR := r.2.1,
        connBuffer :=
          if isTee s.conn.ovConnR then s.conn.connBuffer ++ r.1 else s.conn.connBuffer },
      world := { s.world with transport := r.2.2 },
      gotConn := s.gotConn ++ r.1,
      gotRand := s.gotRand }
  | HsOp.readRand n =>
    let r := readFrom s.conn.ovRand s.world.entropy n
    { conn := { s.conn with
        ovRand := r.2.1,
        randBuffer :=
          if isTee s.conn.ovRand then s.conn.randBuffer ++ r.1 else s.conn.randBuffer },
      world := { s.world with entropy := r.2.2 },
      gotConn := s.gotConn,
      gotRand := s.gotRand ++ r.1 }
  | HsOp.writeConn bs =>
    if s.conn.ovConnW then s
    else { s with world := { s.world with transportWritten := s.world.transportWritten ++ bs } }

/-- A full engine I/O run: fold the operations over the wired state. -/
def run (s : RunSt) (ops : List HsOp) : RunSt := ops.foldl step s

/-- Total number of bytes the operation list requests from the connection reader. -/
def connBytesRequested : List HsOp → Nat
  | [] => 0
  | HsOp.readConn n :: rest => n + connBytesRequested rest
  | _ :: rest => connBytesRequested rest

/-- Total number of bytes the operation list requests from the randomness reader. -/
def randBytesRequested : List HsOp → Nat
  | [] => 0
  | HsOp.readRand n :: rest => n + randBytesRequested rest
  | _ :: rest => randBytesRequested rest

/-- Modelled from the spec: one call of the external engine's own Handshake
(§6).  If the engine holds a cached failure it is returned with no further
I/O (crypto/tls behaviour); otherwise the engine performs its I/O over the
wired sources, its internal sequence counters take the run's final values, a
failure is cached, and the outcome is returned. -/
def engineHandshake (c : Conn) (w : World) (beh : EngineBehavior) :
    Conn × World × Option Nat :=
  match c.engine.failedWith with
  | some code => (c, w, some code)
  | none =>
    let s := run ⟨c, w, [], []⟩ beh.ops
    ({ s.conn with engine := { s.conn.engine with
         inSeq := beh.finalInSeq, outSeq := beh.finalOutSeq, failedWith := beh.result } },
     s.world, beh.result)

/-- Modelled from the spec: getSeq (resumetls.go, lines 155–165) — the
Sequence Accessor read side.  The reflective internal/reflect helpers are not
under src/; per §4.3 the accessor reads the engine's two live 8-byte
per-direction counters, and per §7 it is unsupported (a runtime crash in Go)
on an engine without the reflective fields. -/
def getSeq (e : Engine) : Option (Bytes × Bytes) :=
  if e.supportsSeq then some (e.inSeq, e.outSeq) else none

/-- Modelled from the spec: setSeq (resumetls.go, lines 145–153) — the
Sequence Accessor write side, overwriting the engine's two live counters. -/
def setSeq (e : Engine) (inS outS : Bytes) : Option Engine :=
  if e.supportsSeq then some { e with inSeq := inS, outSeq := outS } else none

/-- tls.Server: a fresh server-side engine for the given configuration. -/
def tlsServer (cfg : Config) : Engine :=
  { role := Role.server, inSeq := zeroSeq, outSeq := zeroSeq,
    failedWith := none, supportsSeq := cfg.supportsSeqAccess }

/-- tls.Client: a fresh client-side engine (never used by this package). -/
def tlsClient (cfg : Config) : Engine :=
  { tlsServer cfg with role := Role.client }

/-- clientInitialize (resumetls.go, lines 56–82): capture-path construction.
Resolves the randomness source (crypto/rand.Reader when the config's Rand is
nil), wires tee readers over both the transport and the randomness source with
fresh empty capture buffers, builds the engine via tls.Server, and installs
the override randomness wrapper by overwriting the config's Rand field
(line 74).  Returns the facade and the (mutated) configuration. -/
def clientInitialize (cfg : Config) : Conn × Config :=
  let rnd := cfg.rand.getD RandSrc.stdlib
  (⟨false, some OvReader.tee, some OvReader.tee, false, [], [], tlsServer cfg⟩,
   { cfg with rand := some (RandSrc.override rnd) })

/-- The resume-path wiring (resumetls.go, lines 90–101): replay readers seeded
with the saved transport and randomness bytes, the discarding write sink
attached, fresh engine via tls.Server. -/
def resumeInit (cfg : Config) (st : State) : Conn :=
  ⟨false, some (OvReader.multi st.rand), some (OvReader.multi st.conn), true,
   [], [], tlsServer cfg⟩

/-- clientResume (resumetls.go, lines 84–116): resume-path construction.
Overwrites the config's Rand field with the override wrapper (line 99), runs
the engine's handshake over the replay wiring; on engine failure the wrapped
error is returned; on success the saved counters are injected via setSeq
(crashing on an engine without Sequence Accessor support) and the returned
facade is already-handshaked, detached, with the saved bytes as its buffers. -/
def clientResume (cfg : Config) (st : State) (w : World) (beh : EngineBehavior) :
    Except HsError Conn × Config × World :=
  let rnd := cfg.rand.getD RandSrc.stdlib
  let cfg2 := { cfg with rand := some (RandSrc.override rnd) }
  let r := engineHandshake (resumeInit cfg st) w beh
  let res : Except HsError Conn :=
    match r.2.2 with
    | some code => Except.error (HsError.handshakeEr code)
    | none =>
      match setSeq r.1.engine st.inSeq st.outSeq with
      | none => Except.error HsError.crash
      | some eng =>
        Except.ok ⟨true, none, none, false, st.conn, st.rand, eng⟩
  (res, cfg2, r.2.1)

/-- Server (resumetls.go, lines 40–46): dispatch to resume or capture
construction depending on whether a prior State is supplied.  The world and
engine behaviour are the ambient inputs a resume-path handshake consumes; the
capture path leaves the world untouched. -/
def Server (cfg : Config) (st : Option State) (w : World) (beh : EngineBehavior) :
    Except HsError Conn × Config × World :=
  match st with
  | some s => clientResume cfg s w beh
  | none =>
    let r := clientInitialize cfg
    (Except.ok r.1, r.2, w)

/-- Client (resumetls.go, lines 48–54): same body as Server. -/
def Client (cfg : Config) (st : Option State) (w : World) (beh : EngineBehavior) :
    Except HsError Conn × Config × World :=
  match st with
  | some s => clientResume cfg s w beh
  | none =>
    let r := clientInitialize cfg
    (Except.ok r.1, r.2, w)

/-- Conn.Handshake (resumetls.go, lines 118–132): returns success immediately
if already handshaked; otherwise runs the engine's handshake.  On failure both
capture buffers are replaced by fresh empty ones and the engine's error is
returned; on success the session is marked handshaked and both override
readers are detached. -/
def Conn.Handshake (c : Conn) (w : World) (beh : EngineBehavior) :
    Conn × World × Option HsError :=
  if c.handshaked then (c, w, none)
  else
    let r := engineHandshake c w beh
    match r.2.2 with
    | some code =>
      ({ r.1 with connBuffer := [], randBuffer := [] }, r.2.1, some (HsError.engine code))
    | none =>
      ({ r.1 with handshaked := true, ovRand := none, ovConnR := none }, r.2.1, none)

/-- Conn.State (resumetls.go, lines 134–143): snapshot of the session — the
two capture buffers and the engine's live sequence counters via getSeq
(`none` models the Go panic on an engine without Sequence Accessor support). -/
def Conn.State (c : Conn) : Option State :=
  match getSeq c.engine with
  | none => none
  | some p => some ⟨c.connBuffer, c.randBuffer, p.1, p.2⟩

/-- The facade clientResume returns on a successful replay handshake: marked
handshaked, fully detached, buffers holding the saved bytes, engine carrying
the injected saved counters over whatever internal state the replay run
produced. -/
def resumedConn (cfg : Config) (st : State) (w : World) (beh : EngineBehavior) : Conn :=
  ⟨true, none, none, false, st.conn, st.rand,
   { (run ⟨resumeInit cfg st, w, [], []⟩ beh.ops).conn.engine with
     inSeq := st.inSeq, outSeq := st.outSeq, failedWith := none }⟩

/-- A concrete configuration with a caller-supplied randomness source and a
Sequence Accessor–capable engine. -/
def sampleCfg : Config := { rand := some (RandSrc.user 0), supportsSeqAccess := true }

/-- A concrete configuration whose engine lacks Sequence Accessor support. -/
def incompatCfg : Config := { rand := none, supportsSeqAccess := false }

/-- A concrete world: four transport bytes, three randomness bytes, nothing
written yet. -/
def sampleWorld : World :=
  { transport := [10, 11, 12, 13], entropy := [20, 21, 22], transportWritten := [] }

/-- A nonzero 8-byte counter value. -/
def oneSeq : Bytes := 1 :: List.replicate 7 0

/-- A concrete successful engine behaviour: reads, a write, more reads. -/
def okBeh : EngineBehavior :=
  { ops := [HsOp.readConn 2, HsOp.readRand 1, HsOp.writeConn [5, 6], HsOp.readConn 2],
    result := none, finalInSeq := oneSeq, finalOutSeq := oneSeq }

/-- A concrete failing engine behaviour that still performed I/O and left a
nonzero incoming counter behind. -/
def failBeh : EngineBehavior :=
  { ops := [HsOp.readConn 2], result := some 7, finalInSeq := oneSeq, finalOutSeq := zeroSeq }

/-- A concrete prior snapshot to resume from. -/
def sampleState : State :=
  { conn := [10, 11, 12], rand := [20, 21],
    inSeq := [2, 0, 0, 0, 0, 0, 0, 0], outSeq := [3, 0, 0, 0, 0, 0, 0, 0] }

/-- A concrete session that has already completed its handshake. -/
def doneConn : Conn :=
  ⟨true, none, none, false, [1, 2], [3], tlsServer sampleCfg⟩

theorem run_nil (s : RunSt) : run s [] = s := rfl

theorem run_cons (s : RunSt) (op : HsOp) (ops : List HsOp) :
    run s (op :: ops) = run (step s op) ops := rfl

/-- A write step never changes the facade, the readable streams or the ghost
observations; only (possibly) the written-bytes log. -/
theorem step_write (s : RunSt) (bs : Bytes) :
    (step s (HsOp.writeConn bs)).conn = s.conn ∧
    (step s (HsOp.writeConn bs)).world.transport = s.world.transport ∧
    (step s (HsOp.writeConn bs)).world.entropy = s.world.entropy ∧
    (step s (HsOp.writeConn bs)).gotConn = s.gotConn ∧
    (step s (HsOp.writeConn bs)).gotRand = s.gotRand := by
  cases hw : s.conn.ovConnW <;> simp [step, hw]

/-- No step ever changes the engine, the discard-sink attachment or the
handshaked flag of the facade. -/
theorem step_frame (s : RunSt) (op : HsOp) :
    (step s op).conn.engine = s.conn.engine ∧
    (step s op).conn.ovConnW = s.conn.ovConnW ∧
    (step s op).conn.handshaked = s.conn.handshaked := by
  cases op with
  | readConn n => simp [step]
  | readRand n => simp [step]
  | writeConn bs => cases hw : s.conn.ovConnW <;> simp [step, hw]

/-- A whole run never changes the engine, the discard-sink attachment or the
handshaked flag of the facade. -/
theorem run_frame (ops : List HsOp) : ∀ s : RunSt,
    (run s ops).conn.engine = s.conn.engine ∧
    (run s ops).conn.ovConnW = s.conn.ovConnW ∧
    (run s ops).conn.handshaked = s.conn.handshaked := by
  induction ops with
  | nil => intro s; exact ⟨rfl, rfl, rfl⟩
  | cons op ops ih =>
    intro s
    have h1 := step_frame s op
    have h2 := ih (step s op)
    rw [run_cons]
    exact ⟨h2.1.trans h1.1, h2.2.1.trans h1.2.1, h2.2.2.trans h1.2.2⟩

/-- While the discarding sink is attached, a run writes nothing to the live
transport. -/
theorem run_discard (ops : List HsOp) : ∀ s : RunSt, s.conn.ovConnW = true →
    (run s ops).world.transportWritten = s.world.transportWritten := by
  induction ops with
  | nil => intro s _; rfl
  | cons op ops ih =>
    intro s h
    rw [run_cons]
    have hp : (step s op).conn.ovConnW = true := (step_frame s op).2.1.trans h
    rw [ih _ hp]
    cases op with
    | readConn n => simp [step]
    | readRand n => simp [step]
    | writeConn bs => simp [step, h]

/-- Capture-mode invariant: while both tee readers are attached, each capture
buffer is its initial contents followed by exactly the bytes the engine has
received from the corresponding source, in order. -/
theorem run_tee (ops : List HsOp) : ∀ (s : RunSt) (bc br : Bytes),
    s.conn.ovConnR = some OvReader.tee → s.conn.ovRand = some OvReader.tee →
    s.conn.connBuffer = bc ++ s.gotConn → s.conn.randBuffer = br ++ s.gotRand →
    (run s ops).conn.ovConnR = some OvReader.tee ∧
    (run s ops).conn.ovRand = some OvReader.tee ∧
    (run s ops).conn.connBuffer = bc ++ (run s ops).gotConn ∧
    (run s ops).conn.randBuffer = br ++ (run s ops).gotRand := by
  induction ops with
  | nil => intro s bc br h1 h2 h3 h4; exact ⟨h1, h2, h3, h4⟩
  | cons op ops ih =>
    intro s bc br h1 h2 h3 h4
    rw [run_cons]
    cases op with
    | readConn n =>
      apply ih <;> simp [step, h1, h2, h3, h4, readFrom, isTee]
    | readRand n =>
      apply ih <;> simp [step, h1, h2, h3, h4, readFrom, isTee]
    | writeConn bs =>
      have hw := step_write s bs
      apply ih
      · rw [hw.1]; exact h1
      · rw [hw.1]; exact h2
      · rw [hw.1, hw.2.2.2.1]; exact h3
      · rw [hw.1, hw.2.2.2.2]; exact h4

/-- A connection read in resume mode: the saved bytes are served first, then
the live transport; deliveries are prefixes of the concatenated stream. -/
theorem step_readConn_multi (s : RunSt) (p : Bytes) (n : Nat)
    (h : s.conn.ovConnR = some (OvReader.multi p)) :
    (step s (HsOp.readConn n)).conn.ovConnR = some (OvReader.multi (p.drop n)) ∧
    (step s (HsOp.readConn n)).world.transport =
      s.world.transport.drop (n - p.length) ∧
    (step s (HsOp.readConn n)).gotConn =
      s.gotConn ++ (p ++ s.world.transport).take n ∧
    (step s (HsOp.readConn n)).conn.ovRand = s.conn.ovRand ∧
    (step s (HsOp.readConn n)).world.entropy = s.world.entropy ∧
    (step s (HsOp.readConn n)).gotRand = s.gotRand ∧
    (step s (HsOp.readConn n)).conn.connBuffer = s.conn.connBuffer ∧
    (step s (HsOp.readConn n)).conn.randBuffer = s.conn.randBuffer := by
  refine ⟨?_, ?_, ?_, ?_, ?_, ?_, ?_, ?_⟩ <;>
    simp [step, h, readFrom, isTee, List.take_append_eq_append_take]

/-- A randomness read in resume mode, symmetric to `step_readConn_multi`. -/
theorem step_readRand_multi (s : RunSt) (q : Bytes) (n : Nat)
    (h : s.conn.ovRand = some (OvReader.multi q)) :
    (step s (HsOp.readRand n)).conn.ovRand = some (OvReader.multi (q.drop n)) ∧
    (step s (HsOp.readRand n)).world.entropy =
      s.world.entropy.drop (n - q.length) ∧
    (step s (HsOp.readRand n)).gotRand =
      s.gotRand ++ (q ++ s.world.entropy).take n ∧
    (step s (HsOp.readRand n)).conn.ovConnR = s.conn.ovConnR ∧
    (step s (HsOp.readRand n)).world.transport = s.world.transport ∧
    (step s (HsOp.readRand n)).gotConn = s.gotConn ∧
    (step s (HsOp.readRand n)).conn.connBuffer = s.conn.connBuffer ∧
    (step s (HsOp.readRand n)).conn.randBuffer = s.conn.randBuffer := by
  refine ⟨?_, ?_, ?_, ?_, ?_, ?_, ?_, ?_⟩ <;>
    simp [step, h, readFrom, isTee, List.take_append_eq_append_take]

/-- Resume-mode invariant: over any run, the bytes delivered to the engine
from each reader are exactly an in-order prefix of (saved bytes ++ live
stream), the saved bytes are consumed first, and the live stream is touched
only for the part the saved bytes could not cover. -/
theorem run_multi (ops : List HsOp) : ∀ (s : RunSt) (p q : Bytes),
    s.conn.ovConnR = some (OvReader.multi p) →
    s.conn.ovRand = some (OvReader.multi q) →
    (run s ops).conn.ovConnR =
      some (OvReader.multi (p.drop (connBytesRequested ops))) ∧
    (run s ops).world.transport =
      s.world.transport.drop (connBytesRequested ops - p.length) ∧
    (run s ops).gotConn =
      s.gotConn ++ (p ++ s.world.transport).take (connBytesRequested ops) ∧
    (run s ops).conn.ovRand =
      some (OvReader.multi (q.drop (randBytesRequested ops))) ∧
    (run s ops).world.entropy =
      s.world.entropy.drop (randBytesRequested ops - q.length) ∧
    (run s ops).gotRand =
      s.gotRand ++ (q ++ s.world.entropy).take (randBytesRequested ops) := by
  induction ops with
  | nil =>
    intro s p q h1 h2
    exact ⟨by simpa [run_nil, connBytesRequested] using h1,
           by simp [run_nil, connBytesRequested],
           by simp [run_nil, connBytesRequested],
           by simpa [run_nil, randBytesRequested] using h2,
           by simp [run_nil, randBytesRequested],
           by simp [run_nil, randBytesRequested]⟩
  | cons op ops ih =>
    intro s p q h1 h2
    rw [run_cons]
    cases op with
    | readConn n =>
      obtain ⟨e1, e2, e3, e4, e5, e6, _, _⟩ := step_readConn_multi s p n h1
      obtain ⟨i1, i2, i3, i4, i5, i6⟩ :=
        ih (step s (HsOp.readConn n)) (p.drop n) q e1 (e4.trans h2)
      refine ⟨?_, ?_, ?_, ?_, ?_, ?_⟩
      · rw [i1, List.drop_drop]
        simp [connBytesRequested]
      · rw [i2, e2, List.drop_drop, List.length_drop]
        congr 1
        simp only [connBytesRequested]
        omega
      · rw [i3, e3, e2, List.append_assoc]
        rw [← List.drop_append_eq_append_drop, ← List.take_add]
        simp [connBytesRequested]
      · rw [i4]
        simp [randBytesRequested]
      · rw [i5, e5]
        simp [randBytesRequested]
      · rw [i6, e6, e5]
        simp [randBytesRequested]
    | readRand n =>
      obtain ⟨e1, e2, e3, e4, e5, e6, _, _⟩ := step_readRand_multi s q n h2
      obtain ⟨i1, i2, i3, i4, i5, i6⟩ :=
        ih (step s (HsOp.readRand n)) p (q.drop n) (e4.trans h1) e1
      refine ⟨?_, ?_, ?_, ?_, ?_, ?_⟩
      · rw [i1]
        simp [connBytesRequested]
      · rw [i2, e5]
        simp [connBytesRequested]
      · rw [i3, e6, e5]
        simp [connBytesRequested]
      · rw [i4, List.drop_drop]
        simp [randBytesRequested]
      · rw [i5, e2, List.drop_drop, List.length_drop]
        congr 1
        simp only [randBytesRequested]
        omega
      · rw [i6, e3, e2, List.append_assoc]
        rw [← List.drop_append_eq_append_drop, ← List.take_add]
        simp [randBytesRequested]
    | writeConn bs =>
      have hw := step_write s bs
      obtain ⟨i1, i2, i3, i4, i5, i6⟩ :=
        ih (step s (HsOp.writeConn bs)) p q (hw.1 ▸ h1) (hw.1 ▸ h2)
      refine ⟨?_, ?_, ?_, ?_, ?_, ?_⟩
      · rw [i1]; simp [connBytesRequested]
      · rw [i2, hw.2.1]; simp [connBytesRequested]
      · rw [i3, hw.2.2.2.1, hw.2.1]; simp [connBytesRequested]
      · rw [i4]; simp [randBytesRequested]
      · rw [i5, hw.2.2.1]; simp [randBytesRequested]
      · rw [i6, hw.2.2.2.2, hw.2.2.1]; simp [randBytesRequested]

/-- Normal form of a successful first Handshake call: the engine runs its I/O
over the wired state, the counters take the run's final values, the session is
marked handshaked, both override readers are detached. -/
theorem handshake_success_eq (c : Conn) (w : World) (beh : EngineBehavior)
    (h1 : c.handshaked = false) (h2 : c.engine.failedWith = none)
    (h3 : beh.result = none) :
    c.Handshake w beh =
      ({ (run ⟨c, w, [], []⟩ beh.ops).conn with
         engine := { (run ⟨c, w, [], []⟩ beh.ops).conn.engine with
           inSeq := beh.finalInSeq, outSeq := beh.finalOutSeq, failedWith := none },
         handshaked := true, ovRand := none, ovConnR := none },
       (run ⟨c, w, [], []⟩ beh.ops).world, none) := by
  simp [Conn.Handshake, engineHandshake, h1, h2, h3]

/-- Normal form of a failed first Handshake call: the engine runs its I/O,
caches the failure, both capture buffers are replaced by empty ones, the
engine's error is propagated. -/
theorem handshake_failure_eq (c : Conn) (w : World) (beh : EngineBehavior) (code : Nat)
    (h1 : c.handshaked = false) (h2 : c.engine.failedWith = none)
    (h3 : beh.result = some code) :
    c.Handshake w beh =
      ({ (run ⟨c, w, [], []⟩ beh.ops).conn with
         engine := { (run ⟨c, w, [], []⟩ beh.ops).conn.engine with
           inSeq := beh.finalInSeq, outSeq := beh.finalOutSeq, failedWith := some code },
         connBuffer := [], randBuffer := [] },
       (run ⟨c, w, [], []⟩ beh.ops).world, some (HsError.engine code)) := by
  simp [Conn.Handshake, engineHandshake, h1, h2, h3]

/-- Normal form of a successful clientResume: the replay handshake runs, the
saved counters are injected over the run's engine state, and the returned
facade is `resumedConn`; the configuration comes back with its Rand field
overwritten. -/
theorem clientResume_success_eq (cfg : Config) (st : State) (w : World)
    (beh : EngineBehavior) (hok : beh.result = none)
    (hseq : cfg.supportsSeqAccess = true) :
    clientResume cfg st w beh =
      (Except.ok (resumedConn cfg st w beh),
       { cfg with rand := some (RandSrc.override (cfg.rand.getD RandSrc.stdlib)) },
       (run ⟨resumeInit cfg st, w, [], []⟩ beh.ops).world) := by
  have hfr := (run_frame beh.ops ⟨resumeInit cfg st, w, [], []⟩).1
  have hsup : (run ⟨resumeInit cfg st, w, [], []⟩ beh.ops).conn.engine.supportsSeq = true := by
    rw [hfr]; simpa [resumeInit, tlsServer] using hseq
  have hfw : (resumeInit cfg st).engine.failedWith = none := rfl
  simp [clientResume, engineHandshake, resumedConn, hok, setSeq, hfw, hsup]

/-- Whenever State() returns a snapshot, its transcript and entropy fields are
the session's capture buffers. -/
theorem state_buffers (c : Conn) (s : State) (h : c.State = some s) :
    s.conn = c.connBuffer ∧ s.rand = c.randBuffer := by
  unfold Conn.State at h
  cases hg : getSeq c.engine with
  | none => rw [hg] at h; simp at h
  | some p =>
    rw [hg] at h
    simp only [Option.some.injEq] at h
    rw [← h]
    exact ⟨rfl, rfl⟩

/-- Claim C1: for every capture-path session whose Handshake() completes
successfully, the snapshot returned by State() has its transcript field equal
to exactly the ordered bytes the handshake consumed from the transport, and
its entropy field equal to exactly the ordered bytes it drew from the
randomness source (the ghost observations `gotConn`/`gotRand` of the engine
run) — no more, no fewer, in order. -/
theorem capture_state_exact_transcript_entropy
    (cfg : Config) (w : World) (beh : EngineBehavior)
    (hok : beh.result = none) (hseq : cfg.supportsSeqAccess = true) :
    ((clientInitialize cfg).1.Handshake w beh).2.2 = none ∧
    ((clientInitialize cfg).1.Handshake w beh).1.State =
      some ⟨(run ⟨(clientInitialize cfg).1, w, [], []⟩ beh.ops).gotConn,
            (run ⟨(clientInitialize cfg).1, w, [], []⟩ beh.ops).gotRand,
            beh.finalInSeq, beh.finalOutSeq⟩ := by
  have heq := handshake_success_eq (clientInitialize cfg).1 w beh rfl rfl hok
  have htee := run_tee beh.ops ⟨(clientInitialize cfg).1, w, [], []⟩ [] [] rfl rfl rfl rfl
  have hfr := (run_frame beh.ops ⟨(clientInitialize cfg).1, w, [], []⟩).1
  have hsup : (run ⟨(clientInitialize cfg).1, w, [], []⟩ beh.ops).conn.engine.supportsSeq =
      true := by
    rw [hfr]; simpa [clientInitialize, tlsServer] using hseq
  rw [heq]
  refine ⟨rfl, ?_⟩
  simp [Conn.State, getSeq, hsup, htee.2.2.1, htee.2.2.2]

/-- Witness for C1: on concrete inputs the snapshot holds exactly the four
transport bytes and the single randomness byte the engine consumed. -/
theorem capture_state_exact_transcript_entropy_witness :
    ((clientInitialize sampleCfg).1.Handshake sampleWorld okBeh).2.2 = none ∧
    ((clientInitialize sampleCfg).1.Handshake sampleWorld okBeh).1.State =
      some ⟨[10, 11, 12, 13], [20], oneSeq, oneSeq⟩ := by
  have h := capture_state_exact_transcript_entropy sampleCfg sampleWorld okBeh rfl rfl
  exact ⟨h.1, h.2.trans (by decide)⟩

/-- Claim C2: in a resume-path session, over any engine run the bytes
delivered from the connection reader are exactly an in-order prefix of
State.conn ++ live transport (so the saved transcript is served byte-for-byte
first), the live transport loses only the part the saved bytes could not
cover (nothing at all until the saved transcript is exhausted), and the same
holds for randomness reads against State.rand and the live randomness
source. -/
theorem resume_reads_served_from_saved_state_first
    (cfg : Config) (st : State) (w : World) (beh : EngineBehavior) :
    (run ⟨resumeInit cfg st, w, [], []⟩ beh.ops).gotConn =
      (st.conn ++ w.transport).take (connBytesRequested beh.ops) ∧
    (run ⟨resumeInit cfg st, w, [], []⟩ beh.ops).world.transport =
      w.transport.drop (connBytesRequested beh.ops - st.conn.length) ∧
    (run ⟨resumeInit cfg st, w, [], []⟩ beh.ops).gotRand =
      (st.rand ++ w.entropy).take (randBytesRequested beh.ops) ∧
    (run ⟨resumeInit cfg st, w, [], []⟩ beh.ops).world.entropy =
      w.entropy.drop (randBytesRequested beh.ops - st.rand.length) := by
  obtain ⟨_, i2, i3, _, i5, i6⟩ :=
    run_multi beh.ops ⟨resumeInit cfg st, w, [], []⟩ st.conn st.rand rfl rfl
  exact ⟨by simpa using i3, i2, by simpa using i6, i5⟩

/-- Claim C3: for every resume-path session whose handshake succeeds, the
saved State.inSeq/outSeq are written into the engine's live counters —
overriding whatever the replay run computed — and the returned session is
marked already-handshaked, so a later explicit Handshake() returns success
without invoking the engine or changing anything. -/
theorem resume_injects_saved_seq_and_marks_handshaked
    (cfg : Config) (st : State) (w : World) (beh : EngineBehavior)
    (hok : beh.result = none) (hseq : cfg.supportsSeqAccess = true) :
    (clientResume cfg st w beh).1 = Except.ok (resumedConn cfg st w beh) ∧
    (resumedConn cfg st w beh).engine.inSeq = st.inSeq ∧
    (resumedConn cfg st w beh).engine.outSeq = st.outSeq ∧
    (resumedConn cfg st w beh).handshaked = true ∧
    ∀ (w2 : World) (beh2 : EngineBehavior),
      (resumedConn cfg st w beh).Handshake w2 beh2 =
        (resumedConn cfg st w beh, w2, none) := by
  refine ⟨?_, rfl, rfl, rfl, fun w2 beh2 => rfl⟩
  rw [clientResume_success_eq cfg st w beh hok hseq]

/-- Witness for C3 at concrete inputs: the resumed session carries the saved
counters (not the replay run's `oneSeq` values) and a second Handshake call is
the identity. -/
theorem resume_injects_saved_seq_and_marks_handshaked_witness :
    (clientResume sampleCfg sampleState sampleWorld okBeh).1 =
      Except.ok (resumedConn sampleCfg sampleState sampleWorld okBeh) ∧
    (resumedConn sampleCfg sampleState sampleWorld okBeh).engine.inSeq =
      [2, 0, 0, 0, 0, 0, 0, 0] ∧
    (resumedConn sampleCfg sampleState sampleWorld okBeh).Handshake sampleWorld failBeh =
      (resumedConn sampleCfg sampleState sampleWorld okBeh, sampleWorld, none) := by
  have h := resume_injects_saved_seq_and_marks_handshaked
    sampleCfg sampleState sampleWorld okBeh rfl rfl
  exact ⟨h.1, h.2.1.trans (by decide), h.2.2.2.2 sampleWorld failBeh⟩

/-- Claim C4: during a replay handshake no byte is ever written to the live
transport: any engine run under the resume wiring leaves the written-bytes log
unchanged, and so does the whole clientResume call. -/
theorem resume_never_writes_live_transport
    (cfg : Config) (st : State) (w : World) (beh : EngineBehavior) :
    (run ⟨resumeInit cfg st, w, [], []⟩ beh.ops).world.transportWritten =
      w.transportWritten ∧
    (clientResume cfg st w beh).2.2.transportWritten = w.transportWritten := by
  have h := run_discard beh.ops ⟨resumeInit cfg st, w, [], []⟩ rfl
  exact ⟨h, h⟩

/-- Claim C5: when a capture-path Handshake() fails, both capture buffers are
discarded entirely, the engine's failure is propagated, and a subsequent
State() reports no transcript or entropy bytes. -/
theorem capture_failure_discards_buffers
    (cfg : Config) (w : World) (beh : EngineBehavior) (code : Nat)
    (hfail : beh.result = some code) :
    ((clientInitialize cfg).1.Handshake w beh).2.2 = some (HsError.engine code) ∧
    ((clientInitialize cfg).1.Handshake w beh).1.connBuffer = [] ∧
    ((clientInitialize cfg).1.Handshake w beh).1.randBuffer = [] ∧
    ∀ s : State, ((clientInitialize cfg).1.Handshake w beh).1.State = some s →
      s.conn = [] ∧ s.rand = [] := by
  have heq := handshake_failure_eq (clientInitialize cfg).1 w beh code rfl rfl hfail
  rw [heq]
  refine ⟨rfl, rfl, rfl, ?_⟩
  intro s hs
  have hb := state_buffers _ s hs
  exact ⟨hb.1.trans rfl, hb.2.trans rfl⟩

/-- Witness for C5 at concrete inputs: error code 7 comes back, and the
snapshot after the failure holds empty transcript and entropy. -/
theorem capture_failure_discards_buffers_witness :
    ((clientInitialize sampleCfg).1.Handshake sampleWorld failBeh).2.2 =
      some (HsError.engine 7) ∧
    (⟨[], [], oneSeq, zeroSeq⟩ : State).conn = [] ∧
    (⟨[], [], oneSeq, zeroSeq⟩ : State).rand = [] := by
  have h := capture_failure_discards_buffers sampleCfg sampleWorld failBeh 7 rfl
  exact ⟨h.1, h.2.2.2 ⟨[], [], oneSeq, zeroSeq⟩ (by decide)⟩

/-- Claim C6 counterexample: a session whose only handshake attempt failed
(so no successful handshake has occurred) gets a snapshot whose incoming
sequence counter is the engine's live, nonzero value — not the zero counter
the claim requires. -/
theorem state_before_success_zero_counters_counterexample :
    ((clientInitialize sampleCfg).1.Handshake sampleWorld failBeh).2.2 =
      some (HsError.engine 7) ∧
    ((clientInitialize sampleCfg).1.Handshake sampleWorld failBeh).1.State =
      some ⟨[], [], oneSeq, zeroSeq⟩ ∧
    oneSeq ≠ zeroSeq := by decide

/-- Claim C6 (amended): for a session with no successful handshake, State()
returns empty transcript and entropy; the sequence counters, however, are read
live from the engine — all-zero on a fresh session before any handshake
attempt, but after a failed attempt they are whatever the failed engine run
left behind, not forced to zero. -/
theorem state_before_success_empty_buffers_live_counters
    (cfg : Config) (w : World) (beh : EngineBehavior) (code : Nat)
    (hseq : cfg.supportsSeqAccess = true) (hfail : beh.result = some code) :
    (clientInitialize cfg).1.State = some ⟨[], [], zeroSeq, zeroSeq⟩ ∧
    ((clientInitialize cfg).1.Handshake w beh).1.State =
      some ⟨[], [], beh.finalInSeq, beh.finalOutSeq⟩ := by
  constructor
  · simp [clientInitialize, Conn.State, getSeq, tlsServer, hseq]
  · have heq := handshake_failure_eq (clientInitialize cfg).1 w beh code rfl rfl hfail
    have hfr := (run_frame beh.ops ⟨(clientInitialize cfg).1, w, [], []⟩).1
    have hsup : (run ⟨(clientInitialize cfg).1, w, [], []⟩ beh.ops).conn.engine.supportsSeq =
        true := by
      rw [hfr]; simpa [clientInitialize, tlsServer] using hseq
    rw [heq]
    simp [Conn.State, getSeq, hsup]

/-- Witness for the amended C6 at concrete inputs. -/
theorem state_before_success_empty_buffers_live_counters_witness :
    (clientInitialize sampleCfg).1.State = some ⟨[], [], zeroSeq, zeroSeq⟩ ∧
    ((clientInitialize sampleCfg).1.Handshake sampleWorld failBeh).1.State =
      some ⟨[], [], oneSeq, zeroSeq⟩ :=
  state_before_success_empty_buffers_live_counters sampleCfg sampleWorld failBeh 7 rfl rfl

/-- Claim C7: Handshake() is idempotent after the first success: on an
already-handshaked session it returns success immediately, touching neither
the session nor the world (so the engine never runs), and any Handshake call
that returns success leaves the session marked handshaked. -/
theorem handshake_idempotent_after_success :
    (∀ (c : Conn) (w : World) (beh : EngineBehavior),
      c.handshaked = true → c.Handshake w beh = (c, w, none)) ∧
    (∀ (c : Conn) (w : World) (beh : EngineBehavior),
      (c.Handshake w beh).2.2 = none → (c.Handshake w beh).1.handshaked = true) := by
  constructor
  · intro c w beh h
    simp [Conn.Handshake, h]
  · intro c w beh h
    cases hh : c.handshaked with
    | true => simp [Conn.Handshake, hh]
    | false =>
      cases hfw : c.engine.failedWith with
      | some code => simp [Conn.Handshake, engineHandshake, hh, hfw] at h
      | none =>
        cases hres : beh.result with
        | some code => simp [Conn.Handshake, engineHandshake, hh, hfw, hres] at h
        | none => simp [Conn.Handshake, engineHandshake, hh, hfw, hres]

/-- Witness for C7: a concrete already-handshaked session is returned
untouched with success, and a concrete successful first handshake marks the
session handshaked. -/
theorem handshake_idempotent_after_success_witness :
    doneConn.Handshake sampleWorld okBeh = (doneConn, sampleWorld, none) ∧
    ((clientInitialize sampleCfg).1.Handshake sampleWorld okBeh).1.handshaked = true :=
  ⟨handshake_idempotent_after_success.1 doneConn sampleWorld okBeh rfl,
   handshake_idempotent_after_success.2 (clientInitialize sampleCfg).1 sampleWorld okBeh
     (by decide)⟩

/-- Claim C8 counterexample: the constructors DO mutate the supplied
configuration: both paths hand back a configuration whose Rand field has been
overwritten with the override wrapper (resumetls.go lines 74 and 99), so it
differs from the configuration passed in. -/
theorem constructor_mutates_config_counterexample :
    (clientInitialize sampleCfg).2 ≠ sampleCfg ∧
    (clientInitialize sampleCfg).2.rand = some (RandSrc.override (RandSrc.user 0)) ∧
    (clientResume sampleCfg sampleState sampleWorld okBeh).2.1 ≠ sampleCfg := by
  decide

/-- Claim C8 (amended): on every constructor call, capture or resume path, the
wrapped randomness source is installed by overwriting the Rand field of the
caller's shared configuration object (with the override wrapper over the
previous source, crypto/rand.Reader when it was nil): the configuration is
mutated, not left untouched. -/
theorem constructor_overwrites_config_rand
    (cfg : Config) (st : State) (w : World) (beh : EngineBehavior) :
    (clientInitialize cfg).2 =
      { cfg with rand := some (RandSrc.override (cfg.rand.getD RandSrc.stdlib)) } ∧
    (clientResume cfg st w beh).2.1 =
      { cfg with rand := some (RandSrc.override (cfg.rand.getD RandSrc.stdlib)) } :=
  ⟨rfl, rfl⟩

/-- Claim C9 counterexample: with an engine that does not support the Sequence
Accessor contract, session construction succeeds anyway — there is no
EngineIncompatible failure at construction anywhere in the code — and the
incompatibility is first hit during a State() call (no snapshot; the Go code
would panic in getSeq) or at the sequence-injection step after a full replay
handshake. -/
theorem incompatible_engine_construction_succeeds :
    (Server incompatCfg none sampleWorld okBeh).1 =
      Except.ok (clientInitialize incompatCfg).1 ∧
    (clientInitialize incompatCfg).1.State = none ∧
    (clientResume incompatCfg sampleState sampleWorld okBeh).1 =
      Except.error HsError.crash :=
  ⟨rfl, rfl, rfl⟩

/-- Claim C9 (amended): no Sequence Accessor capability check happens at
session construction and no EngineIncompatible error exists: capture-path
construction always succeeds whatever the engine supports, and the missing
capability only manifests later — State() yields no snapshot, and a resume
call performs the entire replay handshake (the returned world is the fully
consumed post-run world) before failing at the sequence-injection step. -/
theorem no_construction_time_seq_capability_check
    (cfg : Config) (st : State) (w : World) (beh : EngineBehavior) :
    (Server cfg none w beh).1 = Except.ok (clientInitialize cfg).1 ∧
    (cfg.supportsSeqAccess = false → (clientInitialize cfg).1.State = none) ∧
    (cfg.supportsSeqAccess = false → beh.result = none →
      (clientResume cfg st w beh).1 = Except.error HsError.crash ∧
      (clientResume cfg st w beh).2.2 =
        (run ⟨resumeInit cfg st, w, [], []⟩ beh.ops).world) := by
  refine ⟨rfl, ?_, ?_⟩
  · intro h
    simp [clientInitialize, Conn.State, getSeq, tlsServer, h]
  · intro h hok
    have hfr := (run_frame beh.ops ⟨resumeInit cfg st, w, [], []⟩).1
    have hsup : (run ⟨resumeInit cfg st, w, [], []⟩ beh.ops).conn.engine.supportsSeq =
        false := by
      rw [hfr]; simpa [resumeInit, tlsServer] using h
    have hfw : (resumeInit cfg st).engine.failedWith = none := rfl
    constructor
    · simp [clientResume, engineHandshake, hok, setSeq, hfw, hsup]
    · rfl

/-- Witness for the amended C9 at concrete inputs. -/
theorem no_construction_time_seq_capability_check_witness :
    (Server incompatCfg none sampleWorld failBeh).1 =
      Except.ok (clientInitialize incompatCfg).1 ∧
    (clientInitialize incompatCfg).1.State = none ∧
    (clientResume incompatCfg sampleState sampleWorld okBeh).1 =
      Except.error HsError.crash ∧
    (clientResume incompatCfg sampleState sampleWorld okBeh).2.2 =
      (run ⟨resumeInit incompatCfg sampleState, sampleWorld, [], []⟩ okBeh.ops).world := by
  have h := no_construction_time_seq_capability_check
    incompatCfg sampleState sampleWorld okBeh
  have h2 := no_construction_time_seq_capability_check
    incompatCfg sampleState sampleWorld failBeh
  exact ⟨h2.1, h.2.1 rfl, (h.2.2 rfl rfl).1, (h.2.2 rfl rfl).2⟩

/-- Claim C10: Client and Server are extensionally equal — identical results
on every input, both constructor paths build their engine via tlsServer — and
a session Client constructs always carries a server-side engine, never a
client-side one. -/
theorem client_server_extensionally_equal :
    (∀ (cfg : Config) (st : Option State) (w : World) (beh : EngineBehavior),
      Client cfg st w beh = Server cfg st w beh) ∧
    (∀ cfg : Config, (clientInitialize cfg).1.engine = tlsServer cfg) ∧
    (∀ (cfg : Config) (st : State), (resumeInit cfg st).engine = tlsServer cfg) ∧
    (∀ (cfg : Config) (st : Option State) (w : World) (beh : EngineBehavior) (c : Conn),
      (Client cfg st w beh).1 = Except.ok c → c.engine.role = Role.server) := by
  refine ⟨fun cfg st w beh => rfl, fun cfg => rfl, fun cfg st => rfl, ?_⟩
  intro cfg st w beh c h
  cases st with
  | none =>
    simp [Client, clientInitialize] at h
    rw [← h]
    rfl
  | some s =>
    have hfr := (run_frame beh.ops ⟨resumeInit cfg s, w, [], []⟩).1
    have hfw : (resumeInit cfg s).engine.failedWith = none := rfl
    cases hres : beh.result with
    | some code =>
      simp [Client, clientResume, engineHandshake, hres, hfw] at h
    | none =>
      cases hsup : cfg.supportsSeqAccess with
      | false =>
        have hs2 : (run ⟨resumeInit cfg s, w, [], []⟩ beh.ops).conn.engine.supportsSeq =
            false := by
          rw [hfr]; simpa [resumeInit, tlsServer] using hsup
        simp [Client, clientResume, engineHandshake, hres, hfw, setSeq, hs2] at h
      | true =>
        have hs2 : (run ⟨resumeInit cfg s, w, [], []⟩ beh.ops).conn.engine.supportsSeq =
            true := by
          rw [hfr]; simpa [resumeInit, tlsServer] using hsup
        simp [Client, clientResume, engineHandshake, hres, hfw, setSeq, hs2] at h
        rw [← h]
        have : (run ⟨resumeInit cfg s, w, [], []⟩ beh.ops).conn.engine.role =
            Role.server := by
          rw [hfr]; rfl
        simpa using this

/-- Witness for C10: Client and Server agree at a concrete input, and the
sessions both construct carry a server-side engine. -/
theorem client_server_extensionally_equal_witness :
    Client sampleCfg none sampleWorld okBeh = Server sampleCfg none sampleWorld okBeh ∧
    (clientInitialize sampleCfg).1.engine.role = Role.server :=
  ⟨client_server_extensionally_equal.1 sampleCfg none sampleWorld okBeh,
   client_server_extensionally_equal.2.2.2 sampleCfg none sampleWorld okBeh
     (clientInitialize sampleCfg).1 rfl⟩

end ResumeTLS
